import Mathlib

/-!
Verification of the search-terms analytics core of this repository.

The embedding choices, used throughout:
* JS strings are modelled as `List Char` (`Str`); JS string primitives
  (`toLowerCase`, `trim`, `split(/\s+/)`, `includes`, concatenation) are
  modelled by the corresponding list operations.
* JS numbers are modelled as exact rationals `ℚ`; every arithmetic step of
  the embedded code stays inside the guarded divisions of the source, so no
  non-finite value arises in the pipeline itself.  Where the source
  explicitly tests `isFinite` (the CSV export's ROAS column) the embedded
  field type is widened to `JSNum`, which also carries the non-finite
  values a caller might feed in.
* `Array.prototype.sort(cmp)` (required stable by the ECMAScript spec) is
  modelled by `List.insertionSort` on the relation `cmp a b ≤ 0`, and
  `String.prototype.localeCompare` by code-point lexicographic comparison.
-/

namespace CustomApp

/-- JS strings, modelled as their list of characters. -/
abbrev Str := List Char

/-- `s.toLowerCase()`. -/
def strToLower (s : Str) : Str := s.map Char.toLower

/-- `s.trim()`: remove leading and trailing whitespace. -/
def strTrim (s : Str) : Str :=
  ((s.dropWhile Char.isWhitespace).reverse.dropWhile Char.isWhitespace).reverse

/-- `s.trim().split(/\s+/)` for a string already known to be trimmed:
splitting on whitespace runs, which equals splitting at every whitespace
character and discarding the empty fragments. -/
def splitWs (s : Str) : List Str :=
  (List.splitOnP Char.isWhitespace s).filter (fun w => w ≠ [])

/-- `haystack.includes(needle)` (substring test). -/
def strIncludes (haystack needle : Str) : Bool := decide (needle <:+: haystack)

/-- Code points of a string; JS `localeCompare` is modelled as the
lexicographic comparison of these lists. -/
def codes (s : Str) : List ℕ := s.map Char.toNat

/-- Raw search-term row (`SearchTermMetric` of `lib/types`): identity
fields plus the five raw counters. -/
structure SearchTermMetric where
  search_term : Str
  campaign : Str
  ad_group : Str
  impr : ℚ
  clicks : ℚ
  cost : ℚ
  conv : ℚ
  value : ℚ
deriving DecidableEq

/-- Calculated row (`CalculatedSearchTermMetric` of `lib/metrics`): the raw
row plus the five derived metrics. -/
structure CalculatedSearchTermMetric where
  search_term : Str
  campaign : Str
  ad_group : Str
  impr : ℚ
  clicks : ℚ
  cost : ℚ
  conv : ℚ
  value : ℚ
  CTR : ℚ
  CPC : ℚ
  CvR : ℚ
  CPA : ℚ
  ROAS : ℚ
deriving DecidableEq

/-- Modelled from the spec: the per-row metric calculator
(`calculateAllSearchTermMetrics` of `lib/metrics`) is imported by
`src/app/terms/page.tsx` but its source file is not part of the sources
here; spec §3 gives its formulas verbatim
(`CTR = impressions > 0 ? clicks / impressions * 100 : 0`, etc.). -/
def calculateSearchTermMetric (r : SearchTermMetric) : CalculatedSearchTermMetric :=
  { search_term := r.search_term
    campaign := r.campaign
    ad_group := r.ad_group
    impr := r.impr
    clicks := r.clicks
    cost := r.cost
    conv := r.conv
    value := r.value
    CTR := if r.impr > 0 then r.clicks / r.impr * 100 else 0
    CPC := if r.clicks > 0 then r.cost / r.clicks else 0
    CvR := if r.clicks > 0 then r.conv / r.clicks * 100 else 0
    CPA := if r.conv > 0 then r.cost / r.conv else 0
    ROAS := if r.cost > 0 then r.value / r.cost else 0 }

/-- Modelled from the spec: `calculateAll` applies the calculator to every
row, preserving order and length (spec §4.1). -/
def calculateAllSearchTermMetrics (rows : List SearchTermMetric) :
    List CalculatedSearchTermMetric :=
  rows.map calculateSearchTermMetric

/-- The three text-search modes of `src/app/terms/page.tsx`. -/
inductive SearchMode where
  | contains
  | exact
  | exclude
deriving DecidableEq

/-- Campaign/ad-group scoping stage
(`campaignAndAdGroupFilteredSearchTerms`, `src/app/terms/page.tsx`
lines 94-108): filter by campaign when a campaign filter is selected
(non-empty string), then by ad group likewise. -/
def campaignAndAdGroupFilteredSearchTerms
    (selectedCampaignFilter selectedAdGroupFilter : Str)
    (searchTermsRaw : List SearchTermMetric) : List SearchTermMetric :=
  let filtered := searchTermsRaw
  let filtered := if selectedCampaignFilter ≠ [] then
    filtered.filter (fun term => term.campaign = selectedCampaignFilter) else filtered
  let filtered := if selectedAdGroupFilter ≠ [] then
    filtered.filter (fun term => term.ad_group = selectedAdGroupFilter) else filtered
  filtered

/-- Body of the text-search filter of `src/app/terms/page.tsx`
lines 123-144, for one row: `searchWords` is the tokenised query, and the
searchable text is the lowercased `"term campaign adGroup"` concatenation. -/
def termKeep (searchWords : List Str) (searchTerm : Str) (mode : SearchMode)
    (term : CalculatedSearchTermMetric) : Bool :=
  let searchableText :=
    strToLower (term.search_term ++ [' '] ++ term.campaign ++ [' '] ++ term.ad_group)
  match mode with
  | .contains => searchWords.all (fun word => strIncludes searchableText word)
  | .exact =>
      let exactSearchTerm := strTrim (strToLower searchTerm)
      decide (strToLower term.search_term = exactSearchTerm) ||
      decide (strToLower term.campaign = exactSearchTerm) ||
      decide (strToLower term.ad_group = exactSearchTerm)
  | .exclude => !(searchWords.any (fun word => strIncludes searchableText word))

/-- Text-search stage (`filteredSearchTerms`, `src/app/terms/page.tsx`
lines 116-145): a blank query returns the input unchanged, otherwise the
query is lowercased, trimmed and split on whitespace and each row is kept
according to the search mode. -/
def filteredSearchTerms (searchTerm : Str) (searchMode : SearchMode)
    (calculatedSearchTerms : List CalculatedSearchTermMetric) :
    List CalculatedSearchTermMetric :=
  if strTrim searchTerm = [] then calculatedSearchTerms
  else
    let searchWords := splitWs (strTrim (strToLower searchTerm))
    calculatedSearchTerms.filter (termKeep searchWords searchTerm searchMode)

/-- Accumulator of the totals reduce (`src/app/terms/page.tsx`
lines 151-163). -/
structure TotalsAcc where
  impr : ℚ
  clicks : ℚ
  cost : ℚ
  conv : ℚ
  value : ℚ
deriving DecidableEq

/-- `getModeLabel` of `src/app/terms/page.tsx` lines 172-179. -/
def getModeLabel (searchMode : SearchMode) : Str :=
  match searchMode with
  | .contains => "filtered".toList
  | .exact => "exact match".toList
  | .exclude => "excluding".toList

/-- `", ".join` of `parts` as in `getTotalLabel`. -/
def joinComma : List Str → Str
  | [] => []
  | [p] => p
  | p :: ps => p ++ ", ".toList ++ joinComma ps

/-- `getTotalLabel` of `src/app/terms/page.tsx` lines 181-187. -/
def getTotalLabel (searchMode : SearchMode) (searchTerm : Str)
    (selectedCampaignFilter selectedAdGroupFilter : Str) : Str :=
  let parts : List Str :=
    (if selectedCampaignFilter ≠ [] then ["campaign filtered".toList] else []) ++
    (if selectedAdGroupFilter ≠ [] then ["ad group filtered".toList] else []) ++
    (if strTrim searchTerm ≠ [] then [getModeLabel searchMode] else [])
  if parts ≠ [] then
    "Total (".toList ++ joinComma parts ++ ")".toList
  else "Total".toList

/-- The body of the totals reduce (`src/app/terms/page.tsx`
lines 151-156). -/
def totalsStep (acc : TotalsAcc) (term : CalculatedSearchTermMetric) : TotalsAcc :=
  { impr := acc.impr + term.impr
    clicks := acc.clicks + term.clicks
    cost := acc.cost + term.cost
    conv := acc.conv + term.conv
    value := acc.value + term.value }

/-- Totals aggregation (`totalsRow`, `src/app/terms/page.tsx`
lines 148-200): `null` on an empty collection, otherwise the counters are
summed with a reduce and every derived metric is recomputed from the
summed counters behind a positivity guard. -/
def totalsRow (searchMode : SearchMode) (searchTerm : Str)
    (selectedCampaignFilter selectedAdGroupFilter : Str)
    (rows : List CalculatedSearchTermMetric) :
    Option CalculatedSearchTermMetric :=
  if rows.length = 0 then none
  else
    let totals := rows.foldl totalsStep
      ({ impr := 0, clicks := 0, cost := 0, conv := 0, value := 0 } : TotalsAcc)
    let CTR := if totals.impr > 0 then totals.clicks / totals.impr * 100 else 0
    let CPC := if totals.clicks > 0 then totals.cost / totals.clicks else 0
    let CvR := if totals.clicks > 0 then totals.conv / totals.clicks * 100 else 0
    let CPA := if totals.conv > 0 then totals.cost / totals.conv else 0
    let ROAS := if totals.cost > 0 then totals.value / totals.cost else 0
    some
      { search_term :=
          getTotalLabel searchMode searchTerm selectedCampaignFilter selectedAdGroupFilter
        campaign := []
        ad_group := []
        impr := totals.impr
        clicks := totals.clicks
        cost := totals.cost
        conv := totals.conv
        value := totals.value
        CTR := CTR
        CPC := CPC
        CvR := CvR
        CPA := CPA
        ROAS := ROAS }

/-! ## Sorting (`sortedTerms`, `src/app/terms/page.tsx` lines 203-213) -/

/-- Sort direction (`SortDirection` of `src/app/terms/page.tsx`). -/
inductive SortDirection where
  | asc
  | desc
deriving DecidableEq

/-- `SortField = keyof CalculatedSearchTermMetric`. -/
inductive SortField where
  | search_term
  | campaign
  | ad_group
  | impr
  | clicks
  | cost
  | conv
  | value
  | CTR
  | CPC
  | CvR
  | CPA
  | ROAS
deriving DecidableEq

/-- The value `term[sortField]`: a string for the three identity fields, a
number for the ten metric fields. -/
def fieldVal (term : CalculatedSearchTermMetric) : SortField → Str ⊕ ℚ
  | .search_term => .inl term.search_term
  | .campaign => .inl term.campaign
  | .ad_group => .inl term.ad_group
  | .impr => .inr term.impr
  | .clicks => .inr term.clicks
  | .cost => .inr term.cost
  | .conv => .inr term.conv
  | .value => .inr term.value
  | .CTR => .inr term.CTR
  | .CPC => .inr term.CPC
  | .CvR => .inr term.CvR
  | .CPA => .inr term.CPA
  | .ROAS => .inr term.ROAS

/-- Model of `a.localeCompare(b)`: code-point lexicographic comparison
returning -1, 0 or 1. -/
def localeCompare (a b : Str) : ℚ :=
  if codes a < codes b then -1 else if codes a = codes b then 0 else 1

/-- The sort comparator of `sortedTerms` (`src/app/terms/page.tsx`
lines 204-212): `localeCompare` for two string values, numeric difference
otherwise, with the sign flipped for a descending direction.  The mixed
string/number branches are unreachable because both values come from the
same field. -/
def cmpTerms (sortField : SortField) (sortDirection : SortDirection)
    (a b : CalculatedSearchTermMetric) : ℚ :=
  let dir : ℚ := if sortDirection = .asc then 1 else -1
  match fieldVal a sortField, fieldVal b sortField with
  | .inl s, .inl t => localeCompare s t * dir
  | .inl _, .inr q => (0 - q) * dir
  | .inr q, .inl _ => (q - 0) * dir
  | .inr p, .inr q => (p - q) * dir

/-- Model of `Array.prototype.sort(cmp)`: the ECMAScript spec requires a
stable sort whose output is ordered by `cmp · · ≤ 0`; `insertionSort` on
that relation is such a sort. -/
def jsSort (cmp : α → α → ℚ) (l : List α) : List α :=
  l.insertionSort (fun a b => cmp a b ≤ 0)

/-- `sortedTerms` (`src/app/terms/page.tsx` lines 203-213): sort a spread
copy `[...filteredSearchTerms]` of the filtered collection. -/
def sortedTerms (filtered : List CalculatedSearchTermMetric)
    (sortField : SortField) (sortDirection : SortDirection) :
    List CalculatedSearchTermMetric :=
  jsSort (cmpTerms sortField sortDirection) filtered

/-- State-passing view of the same computation: the spread `[...]` copies
the array, `.sort` mutates only that copy, so the pair is (sorted copy,
state of the input array after the statement). -/
def sortedTermsRun (filtered : List CalculatedSearchTermMetric)
    (sortField : SortField) (sortDirection : SortDirection) :
    List CalculatedSearchTermMetric × List CalculatedSearchTermMetric :=
  (sortedTerms filtered sortField sortDirection, filtered)

/-! ## Pagination (`src/app/terms/page.tsx` lines 44 and 215-220) -/

/-- `const ROWS_PER_PAGE = 50`. -/
def ROWS_PER_PAGE : ℕ := 50

/-- `totalPages = Math.ceil(totalRows / ROWS_PER_PAGE)`, as the natural
ceiling division. -/
def totalPages (totalRows : ℕ) : ℕ :=
  (totalRows + ROWS_PER_PAGE - 1) / ROWS_PER_PAGE

/-- `currentPageData = sortedTerms.slice(startIndex, endIndex)` with
`startIndex = (currentPage - 1) * ROWS_PER_PAGE` and
`endIndex = startIndex + ROWS_PER_PAGE`; `slice` is drop-then-take and is
total on out-of-range indices.  `currentPage` is 1-indexed. -/
def currentPageData (rows : List CalculatedSearchTermMetric)
    (currentPage : ℕ) : List CalculatedSearchTermMetric :=
  (rows.drop ((currentPage - 1) * ROWS_PER_PAGE)).take ROWS_PER_PAGE

/-! ## Tree builder (`SearchTermsTreeView.treeData`, the
`src/components/SearchTermsTreeView.tsx` source, lines 523-585) -/

/-- Node type tag of `TreeNode`. -/
inductive NodeType where
  | campaign
  | adGroup
  | searchTerm
deriving DecidableEq

/-- `TreeNode` of the tree view: id, name, type, optional leaf row, and
children; the `x`, `y`, `depth` layout fields of the source are all
constants at build time and carry no information for the build, so the
embedding keeps only `depth`. -/
inductive TreeNode where
  | mk (id : Str) (name : Str) (type : NodeType)
      (data : Option CalculatedSearchTermMetric) (children : List TreeNode)
      (depth : ℕ)

def TreeNode.id : TreeNode → Str
  | .mk i _ _ _ _ _ => i

def TreeNode.name : TreeNode → Str
  | .mk _ n _ _ _ _ => n

def TreeNode.type : TreeNode → NodeType
  | .mk _ _ t _ _ _ => t

def TreeNode.data : TreeNode → Option CalculatedSearchTermMetric
  | .mk _ _ _ d _ _ => d

def TreeNode.children : TreeNode → List TreeNode
  | .mk _ _ _ _ c _ => c

def TreeNode.depth : TreeNode → ℕ
  | .mk _ _ _ _ _ d => d

/-- Replace the children of a node (the functional image of a `.push` /
in-place `.sort` on the `children` array). -/
def TreeNode.withChildren : TreeNode → List TreeNode → TreeNode
  | .mk i n t d _ dp, c => .mk i n t d c dp

/-- The ad-group id `` `adgroup-${term.campaign}-${term.ad_group}` ``. -/
def adGroupId (term : CalculatedSearchTermMetric) : Str :=
  "adgroup-".toList ++ term.campaign ++ "-".toList ++ term.ad_group

/-- The leaf node built for one row (source lines 560-569). -/
def mkSearchTermNode (term : CalculatedSearchTermMetric) : TreeNode :=
  .mk ("searchterm-".toList ++ term.campaign ++ "-".toList ++ term.ad_group
        ++ "-".toList ++ term.search_term)
    term.search_term .searchTerm (some term) [] 2

/-- The fresh ad-group node of source lines 546-557 after the trailing
`adGroupNode.children.push(searchTermNode)`. -/
def mkAdGroupNode (term : CalculatedSearchTermMetric) : TreeNode :=
  .mk (adGroupId term) term.ad_group .adGroup none [mkSearchTermNode term] 1

/-- `campaignNode.children.find(child => child.id === adGroupId)` followed
by the pushes of source lines 544-571: append the leaf to the first
ad-group child with the matching id, or append a fresh ad-group node. -/
def addToAdGroups : List TreeNode → CalculatedSearchTermMetric → List TreeNode
  | [], term => [mkAdGroupNode term]
  | g :: gs, term =>
      if g.id = adGroupId term then
        g.withChildren (g.children ++ [mkSearchTermNode term]) :: gs
      else g :: addToAdGroups gs term

/-- The fresh campaign node of source lines 528-538. -/
def mkCampaignNode (term : CalculatedSearchTermMetric) : TreeNode :=
  .mk ("campaign-".toList ++ term.campaign) term.campaign .campaign none [] 0

/-- One iteration of the `data.forEach` loop (source lines 526-572) on the
insertion-ordered campaign map, modelled as an association list: ensure a
campaign entry exists for `term.campaign` (appending preserves `Map`
insertion order), then add the row into that entry's node. -/
def insertTerm (campaignMap : List (Str × TreeNode))
    (term : CalculatedSearchTermMetric) : List (Str × TreeNode) :=
  let withCampaign :=
    match campaignMap.lookup term.campaign with
    | some _ => campaignMap
    | none => campaignMap ++ [(term.campaign, mkCampaignNode term)]
  withCampaign.map (fun kc =>
    if kc.1 = term.campaign then
      (kc.1, kc.2.withChildren (addToAdGroups kc.2.children term))
    else kc)

/-- Node comparison used by all three `.sort((a, b) =>
a.name.localeCompare(b.name))` calls of source lines 575-581. -/
def nodeLe (a b : TreeNode) : Prop := codes a.name ≤ codes b.name

instance : DecidableRel nodeLe := fun _ _ => by
  unfold nodeLe
  infer_instance

instance : IsTotal TreeNode nodeLe := ⟨fun _ _ => le_total _ _⟩

instance : IsTrans TreeNode nodeLe := ⟨fun _ _ _ => le_trans⟩

/-- `SearchTermsTreeView.treeData` (source lines 523-585): build the
campaign map by the `forEach` fold, then sort campaigns, each campaign's
ad groups and each ad group's leaves by name. -/
def SearchTermsTreeView.treeData (data : List CalculatedSearchTermMetric) :
    List TreeNode :=
  let campaignMap := data.foldl insertTerm []
  let sortedCampaigns := (campaignMap.map Prod.snd).insertionSort nodeLe
  sortedCampaigns.map (fun campaign =>
    campaign.withChildren
      ((campaign.children.insertionSort nodeLe).map (fun adGroup =>
        adGroup.withChildren (adGroup.children.insertionSort nodeLe))))

/-! ## CSV / TSV export (`src/lib/export.ts`) -/

/-- `MatchType` of `src/lib/export.ts`. -/
inductive MatchType where
  | broad
  | phrase
  | exact
deriving DecidableEq

/-- `formatSearchTermByMatchType` (`src/lib/export.ts` lines 6-16). -/
def formatSearchTermByMatchType (searchTerm : Str) (matchType : MatchType) : Str :=
  match matchType with
  | .phrase => ['"'] ++ searchTerm ++ ['"']
  | .exact => ['['] ++ searchTerm ++ [']']
  | .broad => searchTerm

/-- A JS number as the export sees it: the export's input rows come from
arbitrary callers, so a metric field can carry a non-finite value; the
source tests `isFinite` on the ROAS column. -/
inductive JSNum where
  | num (q : ℚ)
  | posInf
  | negInf
  | nan
deriving DecidableEq

/-- `isFinite(x)`. -/
def JSNum.isFinite : JSNum → Bool
  | .num _ => true
  | _ => false

/-- Decimal digits of a natural number (`Nat.toDigits` renders base 10). -/
def natToStr (n : ℕ) : Str := Nat.toDigits 10 n

/-- `x.toFixed(d)` for a finite value: round `x·10^d` to the nearest
integer (ties away from the smaller candidate, i.e. ties go to the larger
`n`, as the ECMAScript `toFixed` algorithm picks the larger `n`), then
print with `d` decimals. -/
def toFixedQ (d : ℕ) (q : ℚ) : Str :=
  let scaled : ℤ := ⌊q * (10 : ℚ) ^ d + 1 / 2⌋
  let sign : Str := if scaled < 0 then ['-'] else []
  let m := scaled.natAbs
  if d = 0 then sign ++ natToStr m
  else
    let frac := natToStr (m % 10 ^ d)
    sign ++ natToStr (m / 10 ^ d) ++ ['.'] ++
      (List.replicate (d - frac.length) '0' ++ frac)

/-- `x.toFixed(d)` on a general JS number (`Infinity.toFixed(2)` is
`"Infinity"`, `NaN.toFixed(2)` is `"NaN"`). -/
def JSNum.toFixed (d : ℕ) : JSNum → Str
  | .num q => toFixedQ d q
  | .posInf => "Infinity".toList
  | .negInf => "-Infinity".toList
  | .nan => "NaN".toList

/-- A row as consumed by the export functions: the
`CalculatedSearchTermMetric` shape, with the ROAS column kept as a general
JS number so the source's `isFinite(term.ROAS)` test is expressible. -/
structure ExportRow where
  search_term : Str
  campaign : Str
  ad_group : Str
  impr : ℚ
  clicks : ℚ
  cost : ℚ
  conv : ℚ
  value : ℚ
  CTR : ℚ
  CPC : ℚ
  CvR : ℚ
  CPA : ℚ
  ROAS : JSNum
deriving DecidableEq

/-- The export view of a pipeline row (every pipeline value is finite). -/
def toExportRow (t : CalculatedSearchTermMetric) : ExportRow :=
  { search_term := t.search_term, campaign := t.campaign, ad_group := t.ad_group
    impr := t.impr, clicks := t.clicks, cost := t.cost, conv := t.conv
    value := t.value, CTR := t.CTR, CPC := t.CPC, CvR := t.CvR, CPA := t.CPA
    ROAS := .num t.ROAS }

/-- JS number-to-string for the two columns emitted raw (`impr`,
`clicks`): the pipeline counters are integral in practice; integral values
print without a decimal point, non-integral ones with their exact decimal
expansion truncated nowhere in the claims, so the embedding prints
integral values exactly and marks the remaining (claim-irrelevant) cases
by a fixed-point rendering. -/
def jsNumToStr (q : ℚ) : Str :=
  if q.den = 1 then (if q.num < 0 then ['-'] else []) ++ natToStr q.num.natAbs
  else toFixedQ 20 q

/-- The 13 CSV/TSV header cells (`src/lib/export.ts` lines 30-44). -/
def csvHeaders : List Str :=
  ["Search Term".toList, "Campaign".toList, "Ad Group".toList,
   "Impressions".toList, "Clicks".toList, "Cost".toList, "Conversions".toList,
   "Conversion Value".toList, "CTR (%)".toList, "CPC".toList,
   "Conversion Rate (%)".toList, "CPA".toList, "ROAS".toList]

/-- One data record of the export (`src/lib/export.ts` lines 47-60, and
identically lines 119-132 of `prepareForGoogleSheets`). -/
def csvRow (matchType : MatchType) (term : ExportRow) : List Str :=
  [formatSearchTermByMatchType term.search_term matchType,
   term.campaign,
   term.ad_group,
   jsNumToStr term.impr,
   jsNumToStr term.clicks,
   toFixedQ 2 term.cost,
   toFixedQ 1 term.conv,
   toFixedQ 2 term.value,
   toFixedQ 2 term.CTR,
   toFixedQ 2 term.CPC,
   toFixedQ 2 term.CvR,
   toFixedQ 2 term.CPA,
   if term.ROAS.isFinite then term.ROAS.toFixed 2 else "0.00".toList]

/-- CSV field escaping (`src/lib/export.ts` lines 67-74): wrap in double
quotes, doubling inner quotes, when the field holds a comma, quote or
newline. -/
def escapeCsvField (s : Str) : Str :=
  if s.contains ',' || s.contains '"' || s.contains '\n' then
    ['"'] ++ (s.flatMap (fun c => if c = '"' then ['"', '"'] else [c])) ++ ['"']
  else s

/-- `l.join(sep)`. -/
def joinWith (sep : Str) : List Str → Str
  | [] => []
  | [p] => p
  | p :: ps => p ++ sep ++ joinWith sep ps

/-- The CSV text built by `exportSearchTermsToCSV` (`src/lib/export.ts`
lines 19-92) before the download side effects; `none` models the early
`return` on empty data. -/
def exportSearchTermsToCSVContent (data : List ExportRow)
    (matchType : MatchType) : Option Str :=
  if data.length = 0 then none
  else
    let allRows := csvHeaders :: data.map (csvRow matchType)
    some (joinWith ['\n'] (allRows.map (fun row =>
      joinWith [','] (row.map escapeCsvField))))

/-- The TSV text built by `prepareForGoogleSheets` (`src/lib/export.ts`
lines 95-137); the empty case returns the empty string. -/
def prepareForGoogleSheets (data : List ExportRow) (matchType : MatchType) : Str :=
  if data.length = 0 then []
  else
    let allRows := csvHeaders :: data.map (csvRow matchType)
    joinWith ['\n'] (allRows.map (joinWith ['\t']))

/-! ## Helper lemmas -/

/-- Sum of one counter over a collection. -/
def sumImpr (rows : List CalculatedSearchTermMetric) : ℚ := (rows.map (·.impr)).sum

def sumClicks (rows : List CalculatedSearchTermMetric) : ℚ := (rows.map (·.clicks)).sum

def sumCost (rows : List CalculatedSearchTermMetric) : ℚ := (rows.map (·.cost)).sum

def sumConv (rows : List CalculatedSearchTermMetric) : ℚ := (rows.map (·.conv)).sum

def sumValue (rows : List CalculatedSearchTermMetric) : ℚ := (rows.map (·.value)).sum

lemma totalsStep_foldl (rows : List CalculatedSearchTermMetric) (acc : TotalsAcc) :
    rows.foldl totalsStep acc =
      { impr := acc.impr + sumImpr rows
        clicks := acc.clicks + sumClicks rows
        cost := acc.cost + sumCost rows
        conv := acc.conv + sumConv rows
        value := acc.value + sumValue rows } := by
  induction rows generalizing acc with
  | nil =>
      simp [sumImpr, sumClicks, sumCost, sumConv, sumValue]
  | cons r rs ih =>
      simp only [List.foldl_cons, ih, totalsStep, sumImpr, sumClicks, sumCost,
        sumConv, sumValue, List.map_cons, List.sum_cons]
      refine TotalsAcc.mk.injEq .. ▸ ?_
      constructor
      · ring
      constructor
      · ring
      constructor
      · ring
      constructor
      · ring
      · ring

/-- `totalsRow` on a non-empty collection, in closed form: the counters
are the componentwise sums and each derived metric is recomputed from
those sums. -/
lemma totalsRow_eq (mode : SearchMode) (q cf af : Str)
    (rows : List CalculatedSearchTermMetric) (h : rows ≠ []) :
    totalsRow mode q cf af rows = some
      { search_term := getTotalLabel mode q cf af
        campaign := []
        ad_group := []
        impr := sumImpr rows
        clicks := sumClicks rows
        cost := sumCost rows
        conv := sumConv rows
        value := sumValue rows
        CTR := if sumImpr rows > 0 then sumClicks rows / sumImpr rows * 100 else 0
        CPC := if sumClicks rows > 0 then sumCost rows / sumClicks rows else 0
        CvR := if sumClicks rows > 0 then sumConv rows / sumClicks rows * 100 else 0
        CPA := if sumConv rows > 0 then sumCost rows / sumConv rows else 0
        ROAS := if sumCost rows > 0 then sumValue rows / sumCost rows else 0 } := by
  have hlen : rows.length ≠ 0 := by
    simpa [List.length_eq_zero] using h
  simp only [totalsRow, hlen, if_neg, totalsStep_foldl]
  simp

/-! ## C1: totals are summed counters with re-derived metrics -/

/-- C1: for every non-empty collection, the totals row's counters are the
componentwise sums of the rows' counters, and each derived metric (CTR,
CPC, CvR, CPA, ROAS) equals the derived-metric formula applied to those
sums; the derived totals are never obtained by averaging per-row derived
values (the concrete instance of the claim is checked in the witness,
which also shows the totals CPA differs from the average of the per-row
CPAs). -/
theorem totalsRow_sums_then_derives (mode : SearchMode) (q cf af : Str)
    (rows : List CalculatedSearchTermMetric) (h : rows ≠ []) :
    ∃ t, totalsRow mode q cf af rows = some t ∧
      t.impr = sumImpr rows ∧ t.clicks = sumClicks rows ∧ t.cost = sumCost rows ∧
      t.conv = sumConv rows ∧ t.value = sumValue rows ∧
      t.CTR = (if sumImpr rows > 0 then sumClicks rows / sumImpr rows * 100 else 0) ∧
      t.CPC = (if sumClicks rows > 0 then sumCost rows / sumClicks rows else 0) ∧
      t.CvR = (if sumClicks rows > 0 then sumConv rows / sumClicks rows * 100 else 0) ∧
      t.CPA = (if sumConv rows > 0 then sumCost rows / sumConv rows else 0) ∧
      t.ROAS = (if sumCost rows > 0 then sumValue rows / sumCost rows else 0) := by
  exact ⟨_, totalsRow_eq mode q cf af rows h, rfl, rfl, rfl, rfl, rfl, rfl, rfl,
    rfl, rfl, rfl⟩

/-- First example row of the claim: counters
`{impr:100, clicks:10, cost:50, conv:2, value:200}` with its per-row
derived metrics. -/
def exRow1 : CalculatedSearchTermMetric :=
  { search_term := "a".toList, campaign := "c".toList, ad_group := "g".toList
    impr := 100, clicks := 10, cost := 50, conv := 2, value := 200
    CTR := 10, CPC := 5, CvR := 20, CPA := 25, ROAS := 4 }

/-- Second example row of the claim: counters
`{impr:200, clicks:30, cost:100, conv:1, value:50}` with its per-row
derived metrics. -/
def exRow2 : CalculatedSearchTermMetric :=
  { search_term := "b".toList, campaign := "c".toList, ad_group := "g".toList
    impr := 200, clicks := 30, cost := 100, conv := 1, value := 50
    CTR := 15, CPC := 10 / 3, CvR := 10 / 3, CPA := 100, ROAS := 1 / 2 }

/-- Witness for C1, at the concrete rows of the claim: the totals are
`impr 300, clicks 40, cost 150, conv 3, value 250`, `CTR = 40/300*100`,
`CPA = 150/3 = 50`, `ROAS = 250/150`, and the totals CPA is not the
average of the two per-row CPAs. -/
theorem totalsRow_sums_then_derives_witness :
    ∃ t, totalsRow .contains [] [] [] [exRow1, exRow2] = some t ∧
      t.impr = 300 ∧ t.clicks = 40 ∧ t.cost = 150 ∧ t.conv = 3 ∧ t.value = 250 ∧
      t.CTR = 40 / 300 * 100 ∧ t.CPA = 150 / 3 ∧ t.CPA = 50 ∧
      t.ROAS = 250 / 150 ∧ t.CPA ≠ (exRow1.CPA + exRow2.CPA) / 2 := by
  obtain ⟨t, ht, h1, h2, h3, h4, h5, hctr, hcpc, hcvr, hcpa, hroas⟩ :=
    totalsRow_sums_then_derives .contains [] [] [] [exRow1, exRow2] (by simp)
  have e1 : sumImpr [exRow1, exRow2] = 300 := by norm_num [sumImpr, exRow1, exRow2]
  have e2 : sumClicks [exRow1, exRow2] = 40 := by norm_num [sumClicks, exRow1, exRow2]
  have e3 : sumCost [exRow1, exRow2] = 150 := by norm_num [sumCost, exRow1, exRow2]
  have e4 : sumConv [exRow1, exRow2] = 3 := by norm_num [sumConv, exRow1, exRow2]
  have e5 : sumValue [exRow1, exRow2] = 250 := by norm_num [sumValue, exRow1, exRow2]
  refine ⟨t, ht, by rw [h1, e1], by rw [h2, e2], by rw [h3, e3], by rw [h4, e4],
    by rw [h5, e5], ?_, ?_, ?_, ?_, ?_⟩
  · rw [hctr, e1, e2]; norm_num
  · rw [hcpa, e3, e4]; norm_num
  · rw [hcpa, e3, e4]; norm_num
  · rw [hroas, e3, e5]; norm_num
  · rw [hcpa, e3, e4]; norm_num [exRow1, exRow2]

/-! ## C5: aggregation over the empty collection is null -/

/-- C5: `totalsRow` returns the `null` sentinel on the empty collection,
for every search mode, query and filter selection; and it never does so on
a non-empty one (so "no data" is distinguishable from "all-zero data"). -/
theorem totalsRow_empty_is_null (mode : SearchMode) (q cf af : Str) :
    totalsRow mode q cf af [] = none ∧
    ∀ rows : List CalculatedSearchTermMetric, rows ≠ [] →
      (totalsRow mode q cf af rows).isSome := by
  constructor
  · rfl
  · intro rows h
    rw [totalsRow_eq mode q cf af rows h]
    rfl

/-- Witness for C5's non-empty conjunct, at an all-zero row: the result is
some totals row, not the null sentinel. -/
theorem totalsRow_empty_is_null_witness :
    (totalsRow .contains [] [] [] [] = none) ∧
    (totalsRow .contains [] [] []
      [{ search_term := [], campaign := [], ad_group := [], impr := 0,
         clicks := 0, cost := 0, conv := 0, value := 0, CTR := 0, CPC := 0,
         CvR := 0, CPA := 0, ROAS := 0 }]).isSome := by
  refine ⟨(totalsRow_empty_is_null .contains [] [] []).1, ?_⟩
  exact (totalsRow_empty_is_null .contains [] [] []).2 _ (by simp)

/-! ## C9: a blank query is the identity on the collection -/

/-- C9: for every search mode, a query that is empty or whitespace-only
makes the text-search stage return its input collection unchanged (every
row kept, original order). -/
theorem blank_query_keeps_all_rows (q : Str) (mode : SearchMode)
    (rows : List CalculatedSearchTermMetric) (h : strTrim q = []) :
    filteredSearchTerms q mode rows = rows := by
  simp [filteredSearchTerms, h]

/-- Witness for C9: the whitespace-only query `" "` in `exclude` mode
keeps the one-row collection unchanged. -/
theorem blank_query_keeps_all_rows_witness :
    strTrim [' '] = [] ∧
    filteredSearchTerms [' '] .exclude [exRow1] = [exRow1] :=
  ⟨by decide, blank_query_keeps_all_rows [' '] .exclude [exRow1] (by decide)⟩

/-! ## C10: sorting does not mutate its input -/

/-- C10: the sort stage operates on a spread copy of the filtered
collection: after the statement the input collection is unchanged (same
rows, same order), and the sorted output is a rearrangement (permutation)
of the input's rows. -/
theorem sortedTerms_does_not_mutate_input (rows : List CalculatedSearchTermMetric)
    (f : SortField) (d : SortDirection) :
    (sortedTermsRun rows f d).2 = rows ∧
    ((sortedTermsRun rows f d).1).Perm rows ∧
    (sortedTermsRun rows f d).1 = sortedTerms rows f d := by
  refine ⟨rfl, ?_, rfl⟩
  exact List.perm_insertionSort _ rows

/-! ## C4: derived metrics are finite and non-negative -/

lemma sum_nonneg_of_rows {g : CalculatedSearchTermMetric → ℚ}
    (rows : List CalculatedSearchTermMetric)
    (h : ∀ r ∈ rows, 0 ≤ g r) : 0 ≤ (rows.map g).sum := by
  refine List.sum_nonneg ?_
  intro x hx
  obtain ⟨r, hr, rfl⟩ := List.mem_map.mp hx
  exact h r hr

/-- The five guarded divisions produce non-negative values from
non-negative inputs, and each zero-denominator branch yields `0`. -/
lemma guarded_ratios_nonneg {i c co cv v : ℚ}
    (_hi : 0 ≤ i) (hc : 0 ≤ c) (hco : 0 ≤ co) (hcv : 0 ≤ cv) (hv : 0 ≤ v) :
    0 ≤ (if i > 0 then c / i * 100 else 0) ∧
    0 ≤ (if c > 0 then co / c else 0) ∧
    0 ≤ (if c > 0 then cv / c * 100 else 0) ∧
    0 ≤ (if cv > 0 then co / cv else 0) ∧
    0 ≤ (if co > 0 then v / co else 0) := by
  refine ⟨?_, ?_, ?_, ?_, ?_⟩ <;> split <;> positivity

/-- C4: derived metrics stay finite (total, never `NaN`/`Infinity` — in
this exact-rational embedding every guarded branch is a total value) and
non-negative, for every calculated row with non-negative counters and for
every totals row over such rows; whenever impressions are 0 the CTR is 0,
and whenever cost is 0 both CPC and ROAS are 0, regardless of the
conversion value. -/
theorem derived_metrics_nonneg_zero_guards :
    (∀ r : SearchTermMetric,
      0 ≤ r.impr → 0 ≤ r.clicks → 0 ≤ r.cost → 0 ≤ r.conv → 0 ≤ r.value →
      (0 ≤ (calculateSearchTermMetric r).CTR ∧
       0 ≤ (calculateSearchTermMetric r).CPC ∧
       0 ≤ (calculateSearchTermMetric r).CvR ∧
       0 ≤ (calculateSearchTermMetric r).CPA ∧
       0 ≤ (calculateSearchTermMetric r).ROAS) ∧
      (r.impr = 0 → (calculateSearchTermMetric r).CTR = 0) ∧
      (r.cost = 0 → (calculateSearchTermMetric r).CPC = 0 ∧
        (calculateSearchTermMetric r).ROAS = 0)) ∧
    (∀ (mode : SearchMode) (q cf af : Str)
      (rows : List CalculatedSearchTermMetric) (t : CalculatedSearchTermMetric),
      totalsRow mode q cf af rows = some t →
      (∀ r ∈ rows, 0 ≤ r.impr ∧ 0 ≤ r.clicks ∧ 0 ≤ r.cost ∧ 0 ≤ r.conv ∧
        0 ≤ r.value) →
      (0 ≤ t.CTR ∧ 0 ≤ t.CPC ∧ 0 ≤ t.CvR ∧ 0 ≤ t.CPA ∧ 0 ≤ t.ROAS) ∧
      (t.impr = 0 → t.CTR = 0) ∧
      (t.cost = 0 → t.CPC = 0 ∧ t.ROAS = 0)) := by
  constructor
  · intro r hi hc hco hcv hv
    refine ⟨?_, ?_, ?_⟩
    · simpa [calculateSearchTermMetric] using
        guarded_ratios_nonneg hi hc hco hcv hv
    · intro h0
      simp [calculateSearchTermMetric, h0]
    · intro h0
      constructor
      · simp only [calculateSearchTermMetric, h0]
        split <;> simp
      · simp [calculateSearchTermMetric, h0]
  · intro mode q cf af rows t ht hrows
    have hne : rows ≠ [] := by
      rintro rfl
      simp [totalsRow] at ht
    rw [totalsRow_eq mode q cf af rows hne] at ht
    obtain rfl := (Option.some_inj.mp ht).symm
    have hi : 0 ≤ sumImpr rows := sum_nonneg_of_rows rows fun r hr => (hrows r hr).1
    have hc : 0 ≤ sumClicks rows := sum_nonneg_of_rows rows fun r hr => (hrows r hr).2.1
    have hco : 0 ≤ sumCost rows := sum_nonneg_of_rows rows fun r hr => (hrows r hr).2.2.1
    have hcv : 0 ≤ sumConv rows := sum_nonneg_of_rows rows fun r hr => (hrows r hr).2.2.2.1
    have hv : 0 ≤ sumValue rows := sum_nonneg_of_rows rows fun r hr => (hrows r hr).2.2.2.2
    refine ⟨?_, ?_, ?_⟩
    · simpa using guarded_ratios_nonneg hi hc hco hcv hv
    · intro h0
      simp only at h0
      simp [h0]
    · intro h0
      simp only at h0
      constructor
      · simp only [h0]
        split <;> simp
      · simp [h0]

/-- Witness for C4 at concrete inputs: a raw row with zero impressions and
zero cost but positive conversion value yields `CTR = CPC = ROAS = 0`; and
the totals over the claim's example rows have non-negative derived
metrics. -/
theorem derived_metrics_nonneg_zero_guards_witness :
    ((calculateSearchTermMetric
        { search_term := [], campaign := [], ad_group := [], impr := 0,
          clicks := 0, cost := 0, conv := 0, value := 5 }).CTR = 0 ∧
     (calculateSearchTermMetric
        { search_term := [], campaign := [], ad_group := [], impr := 0,
          clicks := 0, cost := 0, conv := 0, value := 5 }).CPC = 0 ∧
     (calculateSearchTermMetric
        { search_term := [], campaign := [], ad_group := [], impr := 0,
          clicks := 0, cost := 0, conv := 0, value := 5 }).ROAS = 0) ∧
    (∀ t, totalsRow .contains [] [] [] [exRow1, exRow2] = some t →
      0 ≤ t.CTR ∧ 0 ≤ t.ROAS) := by
  constructor
  · obtain ⟨h1, h2, h3⟩ :=
      derived_metrics_nonneg_zero_guards.1
        { search_term := [], campaign := [], ad_group := [], impr := 0,
          clicks := 0, cost := 0, conv := 0, value := 5 }
        (by norm_num) (by norm_num) (by norm_num) (by norm_num) (by norm_num)
    exact ⟨h2 rfl, (h3 rfl).1, (h3 rfl).2⟩
  · intro t ht
    have h := derived_metrics_nonneg_zero_guards.2 .contains [] [] []
      [exRow1, exRow2] t ht (by
        intro r hr
        simp only [List.mem_cons, List.not_mem_nil, or_false] at hr
        rcases hr with rfl | rfl
        · norm_num [exRow1]
        · norm_num [exRow2])
    exact ⟨h.1.1, h.1.2.2.2.2⟩

/-! ## C2: exclude mode versus the complement of contains mode -/

/-- A query with two tokens, the first of which matches the row below. -/
def cexQuery : Str := "apple zzz".toList

/-- A row whose searchable text holds `apple` but not `zzz`. -/
def cexRow : CalculatedSearchTermMetric :=
  { search_term := "apple".toList, campaign := "c".toList, ad_group := "g".toList
    impr := 0, clicks := 0, cost := 0, conv := 0, value := 0
    CTR := 0, CPC := 0, CvR := 0, CPA := 0, ROAS := 0 }

/-- Counterexample to C2: on the non-blank two-token query `"apple zzz"`
and the single row `apple / c / g`, `contains` drops the row (the token
`zzz` is missing) and `exclude` also drops it (the token `apple` is
present), so the row is kept by neither mode and the exclude result is not
the complement of the contains result: the source's exclude branch negates
`some` (any token present) rather than `every` (all tokens present). -/
theorem exclude_not_complement_cex :
    strTrim cexQuery ≠ [] ∧
    filteredSearchTerms cexQuery .contains [cexRow] = [] ∧
    filteredSearchTerms cexQuery .exclude [cexRow] = [] ∧
    ¬ (cexRow ∈ filteredSearchTerms cexQuery .exclude [cexRow] ↔
       cexRow ∉ filteredSearchTerms cexQuery .contains [cexRow]) := by
  decide

/-- C2 as amended: for a non-blank query whose lowercased, trimmed form
tokenises to a single word, the exclude result is exactly the
complement — within the scoped collection — of the contains result: it
keeps precisely the rows on which the contains predicate fails.  (For
multi-token queries exclude keeps only the rows containing none of the
tokens, a subset of the complement of contains.) -/
theorem exclude_complement_single_token (q w : Str)
    (rows : List CalculatedSearchTermMetric)
    (h1 : strTrim q ≠ [])
    (h2 : splitWs (strTrim (strToLower q)) = [w]) :
    filteredSearchTerms q .exclude rows =
      rows.filter (fun t => ! termKeep [w] q .contains t) ∧
    ∀ t ∈ rows,
      (t ∈ filteredSearchTerms q .exclude rows ↔
       t ∉ filteredSearchTerms q .contains rows) := by
  have hpt : ∀ t, termKeep [w] q .exclude t = ! termKeep [w] q .contains t := by
    intro t
    simp [termKeep]
  have hex : filteredSearchTerms q .exclude rows =
      rows.filter (fun t => ! termKeep [w] q .contains t) := by
    simp only [filteredSearchTerms, if_neg h1, h2]
    exact List.filter_congr fun t _ => hpt t
  have hco : filteredSearchTerms q .contains rows =
      rows.filter (termKeep [w] q .contains) := by
    simp only [filteredSearchTerms, if_neg h1, h2]
  refine ⟨hex, fun t ht => ?_⟩
  rw [hex, hco]
  simp [List.mem_filter, ht]

/-- Witness for the amended C2 at the spec's own example: the single-token
query `"shoe"` on a one-row collection that does not contain it — the row
is kept by exclude exactly because it is not kept by contains. -/
theorem exclude_complement_single_token_witness :
    strTrim "shoe".toList ≠ [] ∧
    splitWs (strTrim (strToLower "shoe".toList)) = ["shoe".toList] ∧
    (cexRow ∈ filteredSearchTerms "shoe".toList .exclude [cexRow] ↔
     cexRow ∉ filteredSearchTerms "shoe".toList .contains [cexRow]) :=
  ⟨by decide, by decide,
    (exclude_complement_single_token "shoe".toList "shoe".toList [cexRow]
      (by decide) (by decide)).2 cexRow (by simp)⟩

/-! ## C3: pagination -/

/-- Counterexample to C3: with 125 rows, `totalPages = 3`, but requesting
page 10 returns the empty slice, not the last valid page's slice (which is
non-empty) — the slicing performs no clamping. -/
theorem pagination_no_clamp_cex :
    totalPages (List.replicate 125 exRow1).length = 3 ∧
    currentPageData (List.replicate 125 exRow1) 10 = [] ∧
    currentPageData (List.replicate 125 exRow1) 3 ≠ [] := by
  refine ⟨by simp [totalPages, ROWS_PER_PAGE], ?_, ?_⟩
  · simp [currentPageData, ROWS_PER_PAGE, List.drop_replicate]
  · simp [currentPageData, ROWS_PER_PAGE, List.drop_replicate, List.take_replicate]

/-- C3 as amended: `totalPages = ceil(totalRows / 50)` (zero exactly on an
empty collection, and otherwise the unique value with
`50·(totalPages-1) < totalRows ≤ 50·totalPages`), pages are 1-indexed
(page 1 is the first 50 rows), every in-range page (1 ≤ page ≤ totalPages)
yields a non-empty slice, and an out-of-range page yields the empty slice:
the slicing itself does not clamp (the page-navigation handlers clamp the
page number instead). -/
theorem pagination_spec (rows : List CalculatedSearchTermMetric) (page : ℕ) :
    (totalPages rows.length = 0 ↔ rows.length = 0) ∧
    rows.length ≤ ROWS_PER_PAGE * totalPages rows.length ∧
    (0 < rows.length → ROWS_PER_PAGE * (totalPages rows.length - 1) < rows.length) ∧
    currentPageData rows 1 = rows.take ROWS_PER_PAGE ∧
    (1 ≤ page → page ≤ totalPages rows.length → currentPageData rows page ≠ []) ∧
    (totalPages rows.length < page → currentPageData rows page = []) := by
  have hT : totalPages rows.length = (rows.length + 49) / 50 := by
    simp [totalPages, ROWS_PER_PAGE]
  have hR : ROWS_PER_PAGE = 50 := rfl
  refine ⟨?_, ?_, ?_, ?_, ?_, ?_⟩
  · rw [hT]
    omega
  · rw [hT, hR]
    omega
  · rw [hT, hR]
    omega
  · simp [currentPageData]
  · intro h1 h2
    rw [hT] at h2
    intro hnil
    have hlen := congrArg List.length hnil
    simp only [currentPageData, List.length_take, List.length_drop, hR,
      List.length_nil] at hlen
    omega
  · intro hgt
    rw [hT] at hgt
    have hge : rows.length ≤ (page - 1) * ROWS_PER_PAGE := by
      rw [hR]
      omega
    simp [currentPageData, List.drop_eq_nil_of_le hge]

/-- Witness for the amended C3 at 125 rows: page 2 is in range and
non-empty; page 10 is out of range and yields the empty slice. -/
theorem pagination_spec_witness :
    currentPageData (List.replicate 125 exRow1) 2 ≠ [] ∧
    currentPageData (List.replicate 125 exRow1) 10 = [] :=
  ⟨(pagination_spec (List.replicate 125 exRow1) 2).2.2.2.2.1 (by norm_num)
      (by simp [totalPages, ROWS_PER_PAGE]),
   (pagination_spec (List.replicate 125 exRow1) 10).2.2.2.2.2
      (by simp [totalPages, ROWS_PER_PAGE])⟩

/-! ## Tree-builder lemmas -/

@[simp]
lemma TreeNode.id_mk (i n : Str) (ty : NodeType)
    (d : Option CalculatedSearchTermMetric) (c : List TreeNode) (dp : ℕ) :
    (TreeNode.mk i n ty d c dp).id = i := rfl

@[simp]
lemma TreeNode.name_mk (i n : Str) (ty : NodeType)
    (d : Option CalculatedSearchTermMetric) (c : List TreeNode) (dp : ℕ) :
    (TreeNode.mk i n ty d c dp).name = n := rfl

@[simp]
lemma TreeNode.type_mk (i n : Str) (ty : NodeType)
    (d : Option CalculatedSearchTermMetric) (c : List TreeNode) (dp : ℕ) :
    (TreeNode.mk i n ty d c dp).type = ty := rfl

@[simp]
lemma TreeNode.data_mk (i n : Str) (ty : NodeType)
    (d : Option CalculatedSearchTermMetric) (c : List TreeNode) (dp : ℕ) :
    (TreeNode.mk i n ty d c dp).data = d := rfl

@[simp]
lemma TreeNode.children_mk (i n : Str) (ty : NodeType)
    (d : Option CalculatedSearchTermMetric) (c : List TreeNode) (dp : ℕ) :
    (TreeNode.mk i n ty d c dp).children = c := rfl

@[simp]
lemma TreeNode.name_withChildren (n : TreeNode) (c : List TreeNode) :
    (n.withChildren c).name = n.name := by
  cases n
  rfl

@[simp]
lemma TreeNode.type_withChildren (n : TreeNode) (c : List TreeNode) :
    (n.withChildren c).type = n.type := by
  cases n
  rfl

@[simp]
lemma TreeNode.children_withChildren (n : TreeNode) (c : List TreeNode) :
    (n.withChildren c).children = c := by
  cases n
  rfl

/-- Inserting a row into an ad-group list places its leaf in some
resulting ad group. -/
lemma addToAdGroups_adds (gs : List TreeNode) (t : CalculatedSearchTermMetric) :
    ∃ g ∈ addToAdGroups gs t, ∃ l ∈ g.children, l.data = some t := by
  induction gs with
  | nil =>
      exact ⟨mkAdGroupNode t, by simp [addToAdGroups],
        mkSearchTermNode t, by simp [mkAdGroupNode], rfl⟩
  | cons g gs ih =>
      by_cases h : g.id = adGroupId t
      · refine ⟨g.withChildren (g.children ++ [mkSearchTermNode t]),
          by simp [addToAdGroups, h], mkSearchTermNode t, by simp, rfl⟩
      · obtain ⟨g', hg', l, hl, hd⟩ := ih
        exact ⟨g', by simp [addToAdGroups, h, hg'], l, hl, hd⟩

/-- Inserting a row into an ad-group list keeps every leaf already
present. -/
lemma addToAdGroups_mono (gs : List TreeNode) (t : CalculatedSearchTermMetric)
    (g : TreeNode) (l : TreeNode) (hg : g ∈ gs) (hl : l ∈ g.children) :
    ∃ g' ∈ addToAdGroups gs t, l ∈ g'.children := by
  induction gs with
  | nil => cases hg
  | cons g0 gs ih =>
      by_cases h : g0.id = adGroupId t
      · rcases List.mem_cons.mp hg with rfl | hg
        · exact ⟨g.withChildren (g.children ++ [mkSearchTermNode t]),
            by simp [addToAdGroups, h], by simp [hl]⟩
        · refine ⟨g, ?_, hl⟩
          simp only [addToAdGroups, if_pos h, List.mem_cons]
          exact Or.inr hg
      · rcases List.mem_cons.mp hg with rfl | hg
        · exact ⟨g, by simp [addToAdGroups, h], hl⟩
        · obtain ⟨g', hg', hl'⟩ := ih hg
          refine ⟨g', ?_, hl'⟩
          simp only [addToAdGroups, if_neg h, List.mem_cons]
          exact Or.inr hg'

/-- A positive `lookup` on an association list exhibits a member with the
looked-up key. -/
lemma exists_mem_of_lookup_eq_some (m : List (Str × TreeNode)) (k : Str)
    (c : TreeNode) (h : m.lookup k = some c) : (k, c) ∈ m := by
  obtain ⟨l₁, l₂, rfl, -⟩ := List.lookup_eq_some_iff.mp h
  simp

/-- The key/name invariant of the campaign map: every entry's node is
named by its key. -/
def keyInv (m : List (Str × TreeNode)) : Prop :=
  ∀ kc ∈ m, (Prod.snd kc).name = kc.1

/-- The row `r` already has a leaf (under a campaign entry named by its
campaign) in the map `m`. -/
def leafIn (m : List (Str × TreeNode)) (r : CalculatedSearchTermMetric) : Prop :=
  ∃ kc ∈ m, (Prod.snd kc).name = r.campaign ∧
    ∃ g ∈ (Prod.snd kc).children, ∃ l ∈ g.children, l.data = some r

/-- The campaign-ensuring first half of `insertTerm`. -/
lemma mem_ensureCampaign (m : List (Str × TreeNode))
    (t : CalculatedSearchTermMetric) (kc : Str × TreeNode) (h : kc ∈ m) :
    kc ∈ (match m.lookup t.campaign with
          | some _ => m
          | none => m ++ [(t.campaign, mkCampaignNode t)]) := by
  cases m.lookup t.campaign <;> simp [h]

lemma keyInv_insertTerm (m : List (Str × TreeNode))
    (t : CalculatedSearchTermMetric) (h : keyInv m) : keyInv (insertTerm m t) := by
  intro kc hkc
  simp only [insertTerm, List.mem_map] at hkc
  obtain ⟨kc0, hkc0, rfl⟩ := hkc
  have hkc0' : kc0 ∈ m ∨ kc0 = (t.campaign, mkCampaignNode t) := by
    cases hb : m.lookup t.campaign <;> rw [hb] at hkc0
    · simpa using hkc0
    · exact Or.inl hkc0
  have hname : (Prod.snd kc0).name = kc0.1 := by
    rcases hkc0' with hmem | rfl
    · exact h kc0 hmem
    · rfl
  by_cases hk : kc0.1 = t.campaign <;> simp [hk, hname]

lemma leafIn_insertTerm_self (m : List (Str × TreeNode))
    (t : CalculatedSearchTermMetric) (h : keyInv m) : leafIn (insertTerm m t) t := by
  cases hb : m.lookup t.campaign with
  | some c =>
      have hc : (t.campaign, c) ∈ m := exists_mem_of_lookup_eq_some m t.campaign c hb
      obtain ⟨g, hg, l, hl, hd⟩ := addToAdGroups_adds c.children t
      refine ⟨(t.campaign, c.withChildren (addToAdGroups c.children t)), ?_, ?_, g,
        by simpa using hg, l, hl, hd⟩
      · simp only [insertTerm, hb]
        exact List.mem_map.mpr ⟨(t.campaign, c), hc, by simp⟩
      · simpa using h (t.campaign, c) hc
  | none =>
      obtain ⟨g, hg, l, hl, hd⟩ := addToAdGroups_adds (mkCampaignNode t).children t
      refine ⟨(t.campaign,
          (mkCampaignNode t).withChildren (addToAdGroups (mkCampaignNode t).children t)),
        ?_, by simp [mkCampaignNode], g, by simpa using hg, l, hl, hd⟩
      simp only [insertTerm, hb]
      exact List.mem_map.mpr ⟨(t.campaign, mkCampaignNode t), by simp, by simp⟩

lemma leafIn_insertTerm_mono (m : List (Str × TreeNode))
    (t r : CalculatedSearchTermMetric) (h : leafIn m r) : leafIn (insertTerm m t) r := by
  obtain ⟨kc, hkc, hname, g, hg, l, hl, hd⟩ := h
  have hkc' := mem_ensureCampaign m t kc hkc
  by_cases hk : kc.1 = t.campaign
  · obtain ⟨g', hg', hl'⟩ := addToAdGroups_mono (Prod.snd kc).children t g l hg hl
    refine ⟨(kc.1, (Prod.snd kc).withChildren (addToAdGroups (Prod.snd kc).children t)),
      ?_, by simpa using hname, g', by simpa using hg', l, hl', hd⟩
    simp only [insertTerm]
    exact List.mem_map.mpr ⟨kc, hkc', by simp [hk]⟩
  · refine ⟨kc, ?_, hname, g, hg, l, hl, hd⟩
    simp only [insertTerm]
    exact List.mem_map.mpr ⟨kc, hkc', by simp [hk]⟩

lemma keyInv_foldl (data : List CalculatedSearchTermMetric) :
    ∀ m : List (Str × TreeNode), keyInv m → keyInv (data.foldl insertTerm m) := by
  induction data with
  | nil => exact fun m h => h
  | cons t data ih => exact fun m h => ih _ (keyInv_insertTerm m t h)

lemma leafIn_foldl_mono (data : List CalculatedSearchTermMetric)
    (r : CalculatedSearchTermMetric) :
    ∀ m : List (Str × TreeNode), leafIn m r → leafIn (data.foldl insertTerm m) r := by
  induction data with
  | nil => exact fun m h => h
  | cons t data ih => exact fun m h => ih _ (leafIn_insertTerm_mono m t r h)

lemma leafIn_foldl (data : List CalculatedSearchTermMetric)
    (r : CalculatedSearchTermMetric) :
    ∀ m : List (Str × TreeNode), keyInv m → r ∈ data →
      leafIn (data.foldl insertTerm m) r := by
  induction data with
  | nil => exact fun m _ hr => absurd hr (List.not_mem_nil r)
  | cons t data ih =>
      intro m hkey hr
      rcases List.mem_cons.mp hr with rfl | hr
      · exact leafIn_foldl_mono data r _ (leafIn_insertTerm_self m r hkey)
      · exact ih _ (keyInv_insertTerm m t hkey) hr

/-- Every input row ends up as a leaf of the built tree, inside a campaign
node named by the row's campaign. -/
lemma treeData_mem (data : List CalculatedSearchTermMetric)
    (r : CalculatedSearchTermMetric) (hr : r ∈ data) :
    ∃ c ∈ SearchTermsTreeView.treeData data, c.name = r.campaign ∧
      ∃ g ∈ c.children, ∃ l ∈ g.children, l.data = some r := by
  obtain ⟨kc, hkc, hname, g, hg, l, hl, hd⟩ :=
    leafIn_foldl data r [] (fun kc h => absurd h (List.not_mem_nil kc)) hr
  refine ⟨(Prod.snd kc).withChildren
      ((((Prod.snd kc).children).insertionSort nodeLe).map (fun adGroup =>
        adGroup.withChildren (adGroup.children.insertionSort nodeLe))), ?_, ?_, ?_⟩
  · refine List.mem_map.mpr ⟨Prod.snd kc, ?_, rfl⟩
    exact (List.mem_insertionSort nodeLe).mpr (List.mem_map_of_mem _ hkc)
  · simpa using hname
  · refine ⟨g.withChildren (g.children.insertionSort nodeLe), ?_, l, ?_, hd⟩
    · simp only [TreeNode.children_withChildren]
      exact List.mem_map.mpr ⟨g, (List.mem_insertionSort nodeLe).mpr hg, rfl⟩
    · simp only [TreeNode.children_withChildren]
      exact (List.mem_insertionSort nodeLe).mpr hl

/-- The forest and every level of children below it are sorted by name. -/
def forestSorted (f : List TreeNode) : Prop :=
  f.Sorted nodeLe ∧ ∀ c ∈ f, c.children.Sorted nodeLe ∧
    ∀ g ∈ c.children, g.children.Sorted nodeLe

lemma treeData_forestSorted (data : List CalculatedSearchTermMetric) :
    forestSorted (SearchTermsTreeView.treeData data) := by
  have hmap : ∀ (l : List TreeNode) (f : TreeNode → List TreeNode),
      l.Sorted nodeLe → (l.map (fun n => n.withChildren (f n))).Sorted nodeLe := by
    intro l f hl
    refine List.Pairwise.map _ ?_ hl
    intro a b hab
    simpa [nodeLe] using hab
  refine ⟨?_, ?_⟩
  · exact hmap _ _ (List.sorted_insertionSort nodeLe _)
  · intro c hc
    obtain ⟨c0, hc0, rfl⟩ := List.mem_map.mp hc
    refine ⟨?_, ?_⟩
    · simp only [TreeNode.children_withChildren]
      exact hmap _ _ (List.sorted_insertionSort nodeLe _)
    · intro g hg
      simp only [TreeNode.children_withChildren] at hg
      obtain ⟨g0, hg0, rfl⟩ := List.mem_map.mp hg
      simp only [TreeNode.children_withChildren]
      exact List.sorted_insertionSort nodeLe _

/-- `insertTerm` on the empty map, in closed form. -/
lemma insertTerm_nil (t : CalculatedSearchTermMetric) :
    insertTerm [] t =
      [(t.campaign, TreeNode.mk ("campaign-".toList ++ t.campaign) t.campaign
        .campaign none [mkAdGroupNode t] 0)] := by
  simp [insertTerm, mkCampaignNode, addToAdGroups, TreeNode.withChildren]

/-- Inserting two rows with the same campaign and ad group, in closed
form: one campaign entry, one ad-group node, two leaves in input order. -/
lemma insertTerm_pair (t u : CalculatedSearchTermMetric)
    (hc : u.campaign = t.campaign) (hg : u.ad_group = t.ad_group) :
    insertTerm (insertTerm [] t) u =
      [(t.campaign, TreeNode.mk ("campaign-".toList ++ t.campaign) t.campaign
        .campaign none
        [TreeNode.mk (adGroupId t) t.ad_group .adGroup none
          [mkSearchTermNode t, mkSearchTermNode u] 1] 0)] := by
  rw [insertTerm_nil]
  simp [insertTerm, hc, mkAdGroupNode, adGroupId, hg, addToAdGroups,
    TreeNode.withChildren]

/-- The tree built from two rows sharing campaign and ad group, in closed
form up to the final leaf sort. -/
lemma treeData_pair (t u : CalculatedSearchTermMetric)
    (hc : u.campaign = t.campaign) (hg : u.ad_group = t.ad_group) :
    SearchTermsTreeView.treeData [t, u] =
      [TreeNode.mk ("campaign-".toList ++ t.campaign) t.campaign .campaign none
        [TreeNode.mk (adGroupId t) t.ad_group .adGroup none
          (List.insertionSort nodeLe [mkSearchTermNode t, mkSearchTermNode u]) 1] 0] := by
  have hfold : ([t, u].foldl insertTerm []) = insertTerm (insertTerm [] t) u := rfl
  unfold SearchTermsTreeView.treeData
  rw [hfold, insertTerm_pair t u hc hg]
  simp [List.insertionSort, TreeNode.withChildren]

/-! ## C6: deterministic grouping and alphabetical ordering -/

/-- C6: (1) two rows with identical campaign and ad group but different
search terms build exactly one campaign node containing exactly one
ad-group node with exactly two leaves, whose names are the two search
terms; (2) for every input collection, regardless of the order of its
rows, the resulting forest is ordered by name at every level — campaigns,
ad groups within each campaign, and leaves within each ad group (the
source's `localeCompare` is modelled as code-point comparison). -/
theorem treeData_grouping_and_sorted :
    (∀ r1 r2 : CalculatedSearchTermMetric,
      r1.campaign = r2.campaign → r1.ad_group = r2.ad_group →
      r1.search_term ≠ r2.search_term →
      ∃ c g, SearchTermsTreeView.treeData [r1, r2] = [c] ∧
        c.name = r1.campaign ∧ c.type = NodeType.campaign ∧
        c.children = [g] ∧ g.name = r1.ad_group ∧ g.type = NodeType.adGroup ∧
        g.children.length = 2 ∧
        (g.children.map TreeNode.name).Perm [r1.search_term, r2.search_term] ∧
        ∀ l ∈ g.children, l.type = NodeType.searchTerm) ∧
    (∀ data, forestSorted (SearchTermsTreeView.treeData data)) := by
  constructor
  · intro r1 r2 hc hg _
    refine ⟨_, _, treeData_pair r1 r2 hc.symm hg.symm, by simp, by simp, rfl,
      by simp, by simp, ?_, ?_, ?_⟩
    · simp only [TreeNode.children_mk]
      rw [(List.perm_insertionSort nodeLe _).length_eq]
      rfl
    · simp only [TreeNode.children_mk]
      have := (List.perm_insertionSort nodeLe
        [mkSearchTermNode r1, mkSearchTermNode r2]).map TreeNode.name
      simpa [mkSearchTermNode] using this
    · intro l hl
      simp only [TreeNode.children_mk] at hl
      have := (List.mem_insertionSort nodeLe).mp hl
      rcases List.mem_cons.mp this with rfl | h2
      · rfl
      · rcases List.mem_cons.mp h2 with rfl | h3
        · rfl
        · cases h3
  · exact treeData_forestSorted

/-- Row `b` of the C6 witness: campaign `c`, ad group `g`, term `b`. -/
def wRowB : CalculatedSearchTermMetric :=
  { search_term := "b".toList, campaign := "c".toList, ad_group := "g".toList
    impr := 0, clicks := 0, cost := 0, conv := 0, value := 0
    CTR := 0, CPC := 0, CvR := 0, CPA := 0, ROAS := 0 }

/-- Row `a` of the C6 witness: campaign `c`, ad group `g`, term `a`. -/
def wRowA : CalculatedSearchTermMetric :=
  { search_term := "a".toList, campaign := "c".toList, ad_group := "g".toList
    impr := 0, clicks := 0, cost := 0, conv := 0, value := 0
    CTR := 0, CPC := 0, CvR := 0, CPA := 0, ROAS := 0 }

/-- Witness for C6 at concrete rows given in reverse alphabetical order:
the campaign `c` / ad group `g` rows with terms `b` and `a`. -/
theorem treeData_grouping_and_sorted_witness :
    (∃ c g, SearchTermsTreeView.treeData [wRowB, wRowA] = [c] ∧
      c.name = wRowB.campaign ∧ c.type = NodeType.campaign ∧
      c.children = [g] ∧ g.name = wRowB.ad_group ∧ g.type = NodeType.adGroup ∧
      g.children.length = 2 ∧
      (g.children.map TreeNode.name).Perm [wRowB.search_term, wRowA.search_term] ∧
      ∀ l ∈ g.children, l.type = NodeType.searchTerm) ∧
    forestSorted (SearchTermsTreeView.treeData [wRowB, wRowA]) :=
  ⟨treeData_grouping_and_sorted.1 wRowB wRowA rfl rfl (by decide),
   treeData_grouping_and_sorted.2 _⟩

/-! ## C7: rows with an empty campaign value -/

/-- A row whose campaign is the empty string. -/
def ecRow : CalculatedSearchTermMetric :=
  { search_term := "x".toList, campaign := [], ad_group := "g".toList
    impr := 0, clicks := 0, cost := 0, conv := 0, value := 0
    CTR := 0, CPC := 0, CvR := 0, CPA := 0, ROAS := 0 }

/-- Counterexample to C7: the tree built from one empty-campaign row has a
single campaign node named by the empty string — there is no
`"(unknown)"` sentinel bucket anywhere in the forest. -/
theorem treeData_no_unknown_sentinel_cex :
    (SearchTermsTreeView.treeData [ecRow]).map TreeNode.name = [[]] ∧
    "(unknown)".toList ∉ (SearchTermsTreeView.treeData [ecRow]).map TreeNode.name := by
  decide

/-- C7 as amended: a row whose campaign value is the empty string is still
placed in the tree — under a campaign bucket whose name is that empty
string (not a `"(unknown)"` sentinel) — rather than being dropped or
crashing the build. -/
theorem treeData_empty_campaign_bucketed (data : List CalculatedSearchTermMetric)
    (r : CalculatedSearchTermMetric) (hr : r ∈ data) (hc : r.campaign = []) :
    ∃ c ∈ SearchTermsTreeView.treeData data, c.name = [] ∧
      ∃ g ∈ c.children, ∃ l ∈ g.children, l.data = some r := by
  obtain ⟨c, hcm, hname, rest⟩ := treeData_mem data r hr
  exact ⟨c, hcm, hc ▸ hname, rest⟩

/-- Witness for the amended C7 at the concrete empty-campaign row. -/
theorem treeData_empty_campaign_bucketed_witness :
    ∃ c ∈ SearchTermsTreeView.treeData [ecRow], c.name = [] ∧
      ∃ g ∈ c.children, ∃ l ∈ g.children, l.data = some ecRow :=
  treeData_empty_campaign_bucketed [ecRow] ecRow (by simp) rfl

/-! ## C8: CSV/TSV export contract -/

/-- C8: the export emits the fixed 13-column header; each data record has
13 cells; cost, conversion value, CTR, CPC, CvR and CPA are formatted to 2
decimals and conversions to 1 decimal; a finite ROAS is formatted to 2
decimals while a non-finite ROAS is rendered `0.00`; the search-term cell
is wrapped by match type (phrase quoted, exact bracketed, broad
unmodified); and the wrapping never affects any other cell of the record;
a non-empty collection always produces CSV text. -/
theorem export_format_contract :
    csvHeaders.length = 13 ∧
    csvHeaders = ["Search Term".toList, "Campaign".toList, "Ad Group".toList,
      "Impressions".toList, "Clicks".toList, "Cost".toList,
      "Conversions".toList, "Conversion Value".toList, "CTR (%)".toList,
      "CPC".toList, "Conversion Rate (%)".toList, "CPA".toList,
      "ROAS".toList] ∧
    (∀ (t : ExportRow) (m : MatchType),
      (csvRow m t).length = 13 ∧
      (csvRow m t).head? = some (formatSearchTermByMatchType t.search_term m) ∧
      (csvRow m t).get? 5 = some (toFixedQ 2 t.cost) ∧
      (csvRow m t).get? 6 = some (toFixedQ 1 t.conv) ∧
      (csvRow m t).get? 7 = some (toFixedQ 2 t.value) ∧
      (csvRow m t).get? 8 = some (toFixedQ 2 t.CTR) ∧
      (csvRow m t).get? 9 = some (toFixedQ 2 t.CPC) ∧
      (csvRow m t).get? 10 = some (toFixedQ 2 t.CvR) ∧
      (csvRow m t).get? 11 = some (toFixedQ 2 t.CPA) ∧
      (t.ROAS.isFinite = false → (csvRow m t).get? 12 = some "0.00".toList) ∧
      (∀ q, t.ROAS = JSNum.num q → (csvRow m t).get? 12 = some (toFixedQ 2 q))) ∧
    (∀ (t : ExportRow) (m m' : MatchType), (csvRow m t).tail = (csvRow m' t).tail) ∧
    (∀ s : Str, formatSearchTermByMatchType s .phrase = ['"'] ++ s ++ ['"'] ∧
      formatSearchTermByMatchType s .exact = ['['] ++ s ++ [']'] ∧
      formatSearchTermByMatchType s .broad = s) ∧
    (∀ (data : List ExportRow) (m : MatchType), data ≠ [] →
      (exportSearchTermsToCSVContent data m).isSome) := by
  refine ⟨rfl, rfl, ?_, ?_, ?_, ?_⟩
  · intro t m
    refine ⟨rfl, rfl, rfl, rfl, rfl, rfl, rfl, rfl, rfl, ?_, ?_⟩
    · intro h
      simp [csvRow, h]
    · intro q hq
      simp [csvRow, hq, JSNum.isFinite, JSNum.toFixed]
  · intro t m m'
    rfl
  · intro s
    exact ⟨rfl, rfl, rfl⟩
  · intro data m h
    have hlen : data.length ≠ 0 := by
      simpa [List.length_eq_zero] using h
    simp [exportSearchTermsToCSVContent, hlen]

/-- A row carrying a finite (zero) ROAS, for the C8 witness. -/
def ecRowExport : ExportRow :=
  { search_term := "x".toList, campaign := "c".toList, ad_group := "g".toList
    impr := 0, clicks := 0, cost := 0, conv := 0, value := 0
    CTR := 0, CPC := 0, CvR := 0, CPA := 0, ROAS := .num 0 }

/-- A row carrying a non-finite ROAS, for the C8 witness. -/
def nanRow : ExportRow :=
  { search_term := "x".toList, campaign := "c".toList, ad_group := "g".toList
    impr := 1, clicks := 1, cost := 1, conv := 1, value := 1
    CTR := 100, CPC := 1, CvR := 100, CPA := 1, ROAS := .nan }

/-- Witness for C8 at concrete inputs: the NaN-ROAS cell renders `0.00`, a
finite ROAS renders its 2-decimal form, and the one-row export yields CSV
text. -/
theorem export_format_contract_witness :
    (JSNum.isFinite .nan = false ∧
      (csvRow .phrase nanRow).get? 12 = some "0.00".toList) ∧
    (csvRow .broad (ecRowExport)).get? 12 = some (toFixedQ 2 0) ∧
    ([nanRow] ≠ ([] : List ExportRow) ∧
      (exportSearchTermsToCSVContent [nanRow] .phrase).isSome) :=
  ⟨⟨rfl, ((export_format_contract.2.2.1 nanRow .phrase).2.2.2.2.2.2.2.2.2.1 rfl)⟩,
   (export_format_contract.2.2.1 ecRowExport .broad).2.2.2.2.2.2.2.2.2.2 0 rfl,
   ⟨by simp, export_format_contract.2.2.2.2.2 [nanRow] .phrase (by simp)⟩⟩

end CustomApp
